import Mathlib

/-!
Shallow embedding of `src/app.py` (trade-journal generator).

The Python program parses a trading-terminal log, line by line, with a fixed
set of regular expressions, and folds the classified events into a journal
(list of records) together with a running account balance, a pending-orders
map, an open-positions map and a FIFO queue of close ids awaiting P/L
attribution.  Advisory messages (`st.warning` / `st.info`) are modelled as a
list of structured `Advisory` values; the outer `try/except` that converts
any exception (e.g. a `float()` failure) into an empty result is modelled by
an abort flag.

Strings are `List Char`; the regexes of the source are embedded as
deterministic maximal-munch parsers, which is faithful here because in every
pattern a repeated character class (`[\d.]+`, `\d+`, `\S+`, `\s+`) is
followed by a character outside that class, so backtracking can never find an
alternative match.  The one pattern needing genuine backtracking,
`success close #(\d+) (.*) at ([\d.]+)`, is embedded as a rightmost-split
search, matching the greedy `(.*)` semantics.  Monetary values are modelled
as exact rationals; Python's `round(x, 2)` (round-half-to-even) is `round2`.
-/

abbrev Str := List Char

def S (s : String) : Str := s.data

/-- Python `\s` (ASCII part, which is all the log format uses). -/
def isWs (c : Char) : Bool :=
  c == ' ' || c == '\t' || c == '\n' || c == '\r' || c == '\x0b' || c == '\x0c'

def isDigitC (c : Char) : Bool := '0' ≤ c && c ≤ '9'

/-- The character class `[\d.]` used by the numeric capture groups. -/
def isDigitDot (c : Char) : Bool := isDigitC c || c == '.'

/-- Python `str.strip()` on the characters of `isWs`. -/
def pyStrip (l : Str) : Str :=
  ((l.dropWhile isWs).reverse.dropWhile isWs).reverse

/-- Consume a literal, returning the rest of the input. -/
def lit : Str → Str → Option Str
  | [], rest => some rest
  | _, [] => none
  | p :: ps, c :: cs => if p == c then lit ps cs else none

/-- Greedy `X+` for a character class: at least one `p`-character. -/
def many1 (p : Char → Bool) (l : Str) : Option (Str × Str) :=
  match l.takeWhile p with
  | [] => none
  | tk => some (tk, l.dropWhile p)

/-- Exactly `n` characters of class `p` (regex `X{n}`). -/
def exactly (p : Char → Bool) : Nat → Str → Option (Str × Str)
  | 0, l => some ([], l)
  | _ + 1, [] => none
  | n + 1, c :: l =>
    if p c then (exactly p n l).map (fun t => (c :: t.1, t.2)) else none

/-- Greedy `\s+`. -/
def ws1 (l : Str) : Option Str :=
  match many1 isWs l with
  | some (_, r) => some r
  | none => none

/-- Digit string to a number (`int()` on a `\d+` capture, which cannot fail). -/
def digitsToNat (l : Str) : Nat :=
  l.foldl (fun a c => a * 10 + (c.toNat - 48)) 0

/--
Python `float()` restricted to `[\d.]+` captures: succeeds exactly when the
token has at most one dot and at least one digit, giving the exact rational.
-/
def pyFloatQ (s : Str) : Option ℚ :=
  if s.count '.' = 0 then
    if s = [] then none else some (mkRat (digitsToNat s) 1)
  else if s.count '.' = 1 then
    let ip := s.takeWhile (fun c => c ≠ '.')
    let fp := (s.dropWhile (fun c => c ≠ '.')).tail
    if ip = [] ∧ fp = [] then none
    else some (mkRat (digitsToNat ip * 10 ^ fp.length + digitsToNat fp) (10 ^ fp.length))
  else none

/--
Subtraction of rationals, written with `mkRat` so that it evaluates in the
kernel (`Rat.sub` is `@[irreducible]`); `qSub_eq` below certifies it equals
Mathlib subtraction.
-/
def qSub (a b : ℚ) : ℚ := mkRat (a.num * b.den - b.num * a.den) (a.den * b.den)

theorem qSub_eq (a b : ℚ) : qSub a b = a - b := (Rat.sub_def' a b).symm

/-- Round half to even, as Python's builtin `round`. -/
def roundHalfEven (q : ℚ) : ℤ :=
  let f := q.floor
  let r := qSub q (mkRat f 1)
  if r < mkRat 1 2 then f
  else if mkRat 1 2 < r then f + 1
  else if f % 2 = 0 then f else f + 1

/-- Python `round(q, 2)`: multiply by 100, round half to even, divide by 100. -/
def round2 (q : ℚ) : ℚ := mkRat (roundHalfEven (mkRat (q.num * 100) q.den)) 100

/-- Python `str.capitalize()` (ASCII): first char upper-cased, rest lower-cased. -/
def pyCapitalize (s : Str) : Str :=
  match s with
  | [] => []
  | c :: cs => c.toUpper :: cs.map Char.toLower

inductive Level
  | debug | service | trade | user_action
  deriving DecidableEq

/-- The envelope alternation `(Debug|Service|Trade|User_action)`. -/
def parseLevel (l : Str) : Option (Level × Str) :=
  match lit (S "Debug") l with
  | some r => some (.debug, r)
  | none =>
  match lit (S "Service") l with
  | some r => some (.service, r)
  | none =>
  match lit (S "Trade") l with
  | some r => some (.trade, r)
  | none =>
  match lit (S "User_action") l with
  | some r => some (.user_action, r)
  | none => none

/-- The timestamp pattern of the envelope regex. -/
def parseTimestamp (l : Str) : Option (Str × Str) := do
  let (d1, r) ← exactly isDigitC 4 l
  let r ← lit (S ".") r
  let (d2, r) ← exactly isDigitC 2 r
  let r ← lit (S ".") r
  let (d3, r) ← exactly isDigitC 2 r
  let r ← lit (S " ") r
  let (d4, r) ← exactly isDigitC 2 r
  let r ← lit (S ":") r
  let (d5, r) ← exactly isDigitC 2 r
  let r ← lit (S ":") r
  let (d6, r) ← exactly isDigitC 2 r
  let r ← lit (S ".") r
  let (d7, r) ← exactly isDigitC 3 r
  pure (d1 ++ S "." ++ d2 ++ S "." ++ d3 ++ S " " ++ d4 ++ S ":" ++ d5
          ++ S ":" ++ d6 ++ S "." ++ d7, r)

/--
`log_line_regex.match` on a stripped line: timestamp, level, quoted account
id, message (the `(.*)` group, which stops at a newline).
-/
def parseEnv (l : Str) : Option (Str × Level × Str × Str) := do
  let (ts, r) ← parseTimestamp l
  let r ← ws1 r
  let (lvl, r) ← parseLevel r
  let r ← ws1 r
  let r ← lit (S "'") r
  let (acct, r) ← many1 isDigitC r
  let r ← lit (S "':") r
  let r ← ws1 r
  pure (ts, lvl, acct, r.takeWhile (fun c => c ≠ '\n'))

/-- Raw capture groups of `rgx_modify`. -/
structure RawMod where
  orderId : Nat
  dir : Str
  kind : Option Str
  vol : Str
  instr : Str
  price : Str
  tp : Str
  sl : Str
  deriving DecidableEq

/-- The alternation `(buy|sell)`. -/
def parseBuySell (l : Str) : Option (Str × Str) :=
  match lit (S "buy") l with
  | some r => some (S "buy", r)
  | none =>
  match lit (S "sell") l with
  | some r => some (S "sell", r)
  | none => none

/-- The optional group `(limit|stop)?`: consumes the token if literally present. -/
def parseOptKind (l : Str) : Option Str × Str :=
  match lit (S "limit") l with
  | some r => (some (S "limit"), r)
  | none =>
  match lit (S "stop") l with
  | some r => (some (S "stop"), r)
  | none => (none, l)

/-- `rgx_modify.match(message)`. -/
def matchModify (m : Str) : Option RawMod := do
  let r ← lit (S "modify event #") m
  let (oid, r) ← many1 isDigitC r
  let r ← lit (S " ") r
  let (dir, r) ← parseBuySell r
  let r ← lit (S " ") r
  let (kind, r) := parseOptKind r
  let r ← lit (S " ") r
  let (vol, r) ← many1 isDigitDot r
  let r ← lit (S " lots ") r
  let (instr, r) ← many1 (fun c => !isWs c) r
  let r ← lit (S " at ") r
  let (price, r) ← many1 isDigitDot r
  let r ← lit (S " tp: ") r
  let (tp, r) ← many1 isDigitDot r
  let (sl, _) ← (lit (S " sl: ") r).bind (many1 isDigitDot)
  pure ⟨digitsToNat oid, dir, kind, vol, instr, price, tp, sl⟩

/-- Raw capture groups of `rgx_open`. -/
structure RawOpen where
  orderId : Nat
  dir : Str
  vol : Str
  instr : Str
  price : Str
  deriving DecidableEq

/-- `rgx_open.match(message)`. -/
def matchOpen (m : Str) : Option RawOpen := do
  let r ← lit (S "open event #") m
  let (oid, r) ← many1 isDigitC r
  let r ← lit (S " ") r
  let (dir, r) ← parseBuySell r
  let r ← lit (S " ") r
  let (vol, r) ← many1 isDigitDot r
  let r ← lit (S " lots ") r
  let (instr, r) ← many1 (fun c => !isWs c) r
  let (price, _) ← (lit (S " at ") r).bind (many1 isDigitDot)
  pure ⟨digitsToNat oid, dir, vol, instr, price⟩

/-- Raw capture groups of `rgx_close`. -/
structure RawClose where
  orderId : Nat
  dir : Str
  vol : Str
  instr : Str
  price : Str
  closedBy : Str
  deriving DecidableEq

/-- `rgx_close.match(message)`. -/
def matchClose (m : Str) : Option RawClose := do
  let r ← lit (S "close event #") m
  let (oid, r) ← many1 isDigitC r
  let r ← lit (S " ") r
  let (dir, r) ← parseBuySell r
  let r ← lit (S " ") r
  let (vol, r) ← many1 isDigitDot r
  let r ← lit (S " lots ") r
  let (instr, r) ← many1 (fun c => !isWs c) r
  let r ← lit (S " at ") r
  let (price, r) ← many1 isDigitDot r
  let (closedBy, _) ← (lit (S " by ") r).bind (many1 (fun c => !isWs c))
  pure ⟨digitsToNat oid, dir, vol, instr, price, closedBy⟩

/--
The `(.*) at ([\d.]+)` tail of `rgx_close_all_ok`: the greedy `(.*)` makes the
match split at the rightmost " at " that is followed by a `[\d.]` character.
Returns (details group, price group).
-/
def closeAllSplit : Str → Option (Str × Str)
  | [] => none
  | c :: t =>
    match closeAllSplit t with
    | some (d, p) => some (c :: d, p)
    | none =>
      match (lit (S " at ") (c :: t)).bind (many1 isDigitDot) with
      | some (pr, _) => some (([] : Str), pr)
      | none => none

/-- Raw capture groups of `rgx_close_all_ok`. -/
structure RawCloseAllOk where
  orderId : Nat
  details : Str
  priceStr : Str
  deriving DecidableEq

/-- `rgx_close_all_ok.match(message)`. -/
def matchCloseAllOk (m : Str) : Option RawCloseAllOk := do
  let r ← lit (S "success close #") m
  let (oid, r) ← many1 isDigitC r
  let r ← lit (S " ") r
  let (d, p) ← closeAllSplit r
  pure ⟨digitsToNat oid, d, p⟩

/-- `rgx_delete_req.match(message)`: `request delete #(\d+) (.*)`. -/
def matchDeleteReq (m : Str) : Option (Nat × Str) := do
  let r ← lit (S "request delete #") m
  let (oid, r) ← many1 isDigitC r
  let r ← lit (S " ") r
  pure (digitsToNat oid, r.takeWhile (fun c => c ≠ '\n'))

/-- `rgx_delete_ok.match(message)`: `success delete #(\d+) (.*)`. -/
def matchDeleteOk (m : Str) : Option (Nat × Str) := do
  let r ← lit (S "success delete #") m
  let (oid, r) ← many1 isDigitC r
  let r ← lit (S " ") r
  pure (digitsToNat oid, r.takeWhile (fun c => c ≠ '\n'))

/-- `rgx_close_all_req.match(message)`. -/
def matchCloseAllReq (m : Str) : Bool :=
  (lit (S "request close all orders positions") m).isSome

/-- `re.search`: try the anchored parser at every suffix, leftmost first. -/
def searchOpt (p : Str → Option α) : Str → Option α
  | [] => p []
  | c :: t =>
    match p (c :: t) with
    | some x => some x
    | none => searchOpt p t

/-- `rgx_balance_upd.search(message)`, returning the captured token. -/
def matchBalUpd (m : Str) : Option Str :=
  searchOpt (fun l => (lit (S "upd account info balance ") l).bind
    (fun r => (many1 isDigitDot r).map (·.1))) m

/-- `rgx_balance_init.search(message)`, returning the captured token. -/
def matchBalInit (m : Str) : Option Str :=
  searchOpt (fun l => (lit (S "account balance ") l).bind
    (fun r => (many1 isDigitDot r).bind
      (fun t => (lit (S " USD") t.2).map (fun _ => t.1)))) m

/-- The `entry` dict of the source: one journal row. -/
structure JournalRecord where
  timestamp : Str
  orderId : Option Nat
  action : Option Str
  direction : Option Str
  type : Option Str
  instrument : Option Str
  volume : Option ℚ
  price : Option ℚ
  tp : Option ℚ
  sl : Option ℚ
  notes : Str
  balanceAfterClose : Option ℚ
  pl : Option ℚ
  deriving DecidableEq

/-- The freshly initialised `entry` dict (all fields null, empty notes). -/
def emptyRec (ts : Str) : JournalRecord :=
  ⟨ts, none, none, none, none, none, none, none, none, none, [], none, none⟩

/-- Structured form of the `st.warning` / `st.info` diagnostics. -/
inductive Advisory
  | ambiguous (ts : Str) (delta : ℚ) (ids : List Nat)
  | drift (ts : Str) (delta : ℚ)
  deriving DecidableEq

/-- A classified line: one constructor per inner pattern the source reacts to. -/
inductive Event
  | balInit (ts : Str) (b : ℚ)
  | balUpd (ts : Str) (b : ℚ)
  | placeMod (ts : Str) (id : Nat) (dir : Str) (kind : Option Str)
      (vol price tp sl : ℚ) (instr : Str)
  | opened (ts : Str) (id : Nat) (dir : Str) (vol price : ℚ) (instr : Str)
  | closed (ts : Str) (id : Nat) (dir : Str) (vol price : ℚ) (instr : Str)
      (closedBy : Str)
  | closeAllOk (ts : Str) (id : Nat) (details : Str) (priceStr : Str)
  | deleteReq (ts : Str) (id : Nat) (details : Str)
  | deleteOk (ts : Str) (id : Nat) (details : Str)
  | closeAllReq (ts : Str)
  deriving DecidableEq

/-- The mutable state of `generate_trading_journal_from_content`. -/
structure BState where
  journal : List JournalRecord
  pending : Nat → Option JournalRecord
  openPos : Nat → Option JournalRecord
  lastKnownBalance : Option ℚ
  pendingPl : List Nat
  advisories : List Advisory
  accountId : Str

def initState : BState :=
  ⟨[], fun _ => none, fun _ => none, none, [], [], S "N/A"⟩

/-- The reverse-scan predicate of the attribution step (line 99 of the source). -/
def isUnassignedClose (cid : Nat) (r : JournalRecord) : Bool :=
  r.orderId == some cid && r.action == some (S "Close") && r.pl == none

/--
Index of the LAST list element satisfying `p` (the source scans the journal
in reverse with `range(len(journal) - 1, -1, -1)`).
-/
def findLastIdx (p : JournalRecord → Bool) : List JournalRecord → Option Nat
  | [] => none
  | r :: rs =>
    match findLastIdx p rs with
    | some i => some (i + 1)
    | none => if p r then some 0 else none

/-- In-place mutation of `journal[i]` (no-op when out of range). -/
def updateAt : List JournalRecord → Nat → (JournalRecord → JournalRecord) →
    List JournalRecord
  | [], _, _ => []
  | r :: rs, 0, f => f r :: rs
  | r :: rs, i + 1, f => r :: updateAt rs i f

/--
The attribution loop of lines 96-109: find the first queued id (in queue
order) whose most recent `Close` record still has null P/L; return that id
and the record's index.
-/
def firstAttributable (j : List JournalRecord) : List Nat → Option (Nat × Nat)
  | [] => none
  | cid :: rest =>
    match findLastIdx (isUnassignedClose cid) j with
    | some i => some (cid, i)
    | none => firstAttributable j rest

/-- The record appended by the `m_mod` branch (lines 140-152). -/
def placeModRecord (ts : Str) (id : Nat) (dir : Str) (kind : Option Str)
    (vol price tp sl : ℚ) (instr : Str) : JournalRecord :=
  { emptyRec ts with
    orderId := some id
    action := some (S "Place/Mod")
    direction := some (pyCapitalize dir)
    type := some (pyCapitalize (kind.getD (S "Limit/Stop")))
    instrument := some instr
    volume := some vol
    price := some price
    tp := some tp
    sl := some sl }

/-- The record appended by the `m_open` branch (lines 154-171). -/
def openRecord (ts : Str) (id : Nat) (dir : Str) (vol price : ℚ) (instr : Str)
    (type : Str) (tp sl : Option ℚ) : JournalRecord :=
  { emptyRec ts with
    orderId := some id
    action := some (S "Open")
    direction := some (pyCapitalize dir)
    type := some type
    instrument := some instr
    volume := some vol
    price := some price
    tp := tp
    sl := sl }

/-- The record appended by the `m_close` branch (lines 173-185). -/
def closeRecord (ts : Str) (id : Nat) (dir : Str) (vol price : ℚ) (instr : Str)
    (closedBy : Str) : JournalRecord :=
  { emptyRec ts with
    orderId := some id
    action := some (S "Close")
    direction := some (pyCapitalize dir)
    price := some price
    instrument := some instr
    volume := some vol
    notes := S "Closed by " ++ closedBy }

/-- The standalone record of the `m_close_all_ok` branch when no prior close is found. -/
def closeOkRecord (ts : Str) (id : Nat) (priceStr : Str) : JournalRecord :=
  { emptyRec ts with
    orderId := some id
    action := some (S "Close OK")
    notes := S "Part of Close All. Confirmed @ " ++ priceStr }

/-- State transition for one classified event (lines 75-224 of the source). -/
def stepEvent (s : BState) (ev : Event) : BState :=
  match ev with
  | .balInit _ b =>
    match s.lastKnownBalance with
    | none => { s with lastKnownBalance := some b }
    | some _ => s
  | .balUpd ts b =>
    match s.lastKnownBalance with
    | none => { s with lastKnownBalance := some b }
    | some lk =>
      match s.pendingPl with
      | [] =>
        if b = lk then { s with lastKnownBalance := some b }
        else
          { s with
            advisories := s.advisories ++ [.drift ts (round2 (qSub b lk))]
            lastKnownBalance := some b }
      | cid0 :: rest =>
        match firstAttributable s.journal (cid0 :: rest) with
        | some (cid, i) =>
          { s with
            journal := updateAt s.journal i (fun r =>
              { r with balanceAfterClose := some b, pl := some (round2 (qSub b lk)) })
            pendingPl := (cid0 :: rest).erase cid
            lastKnownBalance := some b }
        | none =>
          if b = lk then { s with lastKnownBalance := some b }
          else
            { s with
              advisories :=
                s.advisories ++ [.ambiguous ts (round2 (qSub b lk)) (cid0 :: rest)]
              pendingPl := []
              lastKnownBalance := some b }
  | .placeMod ts id dir kind vol price tp sl instr =>
    let nr := placeModRecord ts id dir kind vol price tp sl instr
    { s with
      pending := fun k => if k = id then some nr else s.pending k
      journal := s.journal ++ [nr] }
  | .opened ts id dir vol price instr =>
    match s.pending id with
    | some p =>
      let nr := openRecord ts id dir vol price instr (S "Limit Hit") p.tp p.sl
      { s with
        pending := fun k => if k = id then none else s.pending k
        openPos := fun k => if k = id then some nr else s.openPos k
        journal := s.journal ++ [nr] }
    | none =>
      let nr := openRecord ts id dir vol price instr (S "Market?/Gap?") none none
      { s with
        openPos := fun k => if k = id then some nr else s.openPos k
        journal := s.journal ++ [nr] }
  | .closed ts id dir vol price instr closedBy =>
    { s with
      openPos := fun k => if k = id then none else s.openPos k
      pendingPl := s.pendingPl ++ [id]
      journal := s.journal ++ [closeRecord ts id dir vol price instr closedBy] }
  | .closeAllOk ts id _ priceStr =>
    match findLastIdx (fun r => r.orderId == some id && r.action == some (S "Close"))
        s.journal with
    | some i =>
      { s with
        journal := updateAt s.journal i (fun r =>
          { r with notes := r.notes ++ S ". Close OK @ " ++ priceStr }) }
    | none => { s with journal := s.journal ++ [closeOkRecord ts id priceStr] }
  | .deleteReq ts id details =>
    { s with
      journal := s.journal ++
        [{ emptyRec ts with
            orderId := some id
            action := some (S "Delete Req")
            notes := S "User: " ++ details }] }
  | .deleteOk ts id details =>
    { s with
      pending := fun k => if k = id then none else s.pending k
      journal := s.journal ++
        [{ emptyRec ts with
            orderId := some id
            action := some (S "Delete OK")
            notes := S "Success: " ++ details }] }
  | .closeAllReq ts =>
    { s with
      journal := s.journal ++
        [{ emptyRec ts with
            action := some (S "Close All Req")
            notes := S "User requested close all" }] }

/-- `float()` on a capture, raising `ValueError` on failure. -/
def toQ (s : Str) : Except Unit ℚ :=
  match pyFloatQ s with
  | some q => .ok q
  | none => .error ()

/--
Classify a message under its level: `.ok none` means the line is skipped,
`.error ()` means a `float()` call raised (caught at the outer boundary).
The branch order mirrors the source: balance patterns first, then the trade
patterns `modify`/`open`/`close`/`close_all_ok`, then the user-action
patterns `delete_req`/`delete_ok`/`close_all_req`; `Debug` lines are ignored.
-/
def classifyMsg (ts : Str) (lvl : Level) (msg : Str) : Except Unit (Option Event) :=
  match lvl with
  | .debug => .ok none
  | .service =>
    match matchBalInit msg with
    | some b => (toQ b).map (fun q => some (.balInit ts q))
    | none => .ok none
  | .trade =>
    match matchBalUpd msg with
    | some b => (toQ b).map (fun q => some (.balUpd ts q))
    | none =>
    match matchModify msg with
    | some rm => do
      let vol ← toQ rm.vol
      let price ← toQ rm.price
      let tp ← toQ rm.tp
      let sl ← toQ rm.sl
      .ok (some (.placeMod ts rm.orderId rm.dir rm.kind vol price tp sl rm.instr))
    | none =>
    match matchOpen msg with
    | some ro => do
      let vol ← toQ ro.vol
      let price ← toQ ro.price
      .ok (some (.opened ts ro.orderId ro.dir vol price ro.instr))
    | none =>
    match matchClose msg with
    | some rc => do
      let vol ← toQ rc.vol
      let price ← toQ rc.price
      .ok (some (.closed ts rc.orderId rc.dir vol price rc.instr rc.closedBy))
    | none =>
    match matchCloseAllOk msg with
    | some rk => .ok (some (.closeAllOk ts rk.orderId rk.details rk.priceStr))
    | none => .ok none
  | .user_action =>
    match matchDeleteReq msg with
    | some dq => .ok (some (.deleteReq ts dq.1 dq.2))
    | none =>
    match matchDeleteOk msg with
    | some dk => .ok (some (.deleteOk ts dk.1 dk.2))
    | none =>
    if matchCloseAllReq msg then .ok (some (.closeAllReq ts)) else .ok none

/-- Line 54 of the source: capture the first account id seen. -/
def acctUpd (s : BState) (acct : Str) : BState :=
  if s.accountId = S "N/A" then { s with accountId := acct } else s

/--
Process one raw line: envelope match (on the stripped line), first-account-id
capture, then classification and the state transition.
-/
def processLine (s : BState) (line : Str) : Except Unit BState :=
  match parseEnv (pyStrip line) with
  | none => .ok s
  | some (ts, lvl, acct, msg) =>
    let s1 := acctUpd s acct
    match classifyMsg ts lvl msg with
    | .error e => .error e
    | .ok none => .ok s1
    | .ok (some ev) => .ok (stepEvent s1 ev)

/--
The main loop; the Bool is the abort flag of the outer `try/except` (an
exception stops processing; advisories already emitted stay visible).
-/
def runLines : BState → List Str → BState × Bool
  | s, [] => (s, false)
  | s, l :: ls =>
    match processLine s l with
    | .ok s1 => runLines s1 ls
    | .error _ => (s, true)

def runLog (lines : List Str) : BState × Bool := runLines initState lines

/--
The journal produced by `generate_trading_journal_from_content` for the given
(already split) lines: empty on an exception, the accumulated rows otherwise.
-/
def generate (lines : List Str) : List JournalRecord :=
  match runLog lines with
  | (s, false) => s.journal
  | (_, true) => []

/--
Sanity check: the worked example of the spec, end to end through the line
parsers and the builder: an Open row and a Close row with P/L 5.00 and
balance-after-close 1005.00.
-/
theorem worked_example_run :
    (generate
      [S "2024.01.01 10:00:00.000 Service '123': account balance 1000.00 USD",
       S "2024.01.01 10:00:01.000 Trade '123': open event #1 buy 1.00 lots EURUSD at 1.1000",
       S "2024.01.01 10:00:02.000 Trade '123': close event #1 buy 1.00 lots EURUSD at 1.1050 by tp",
       S "2024.01.01 10:00:03.000 Trade '123': upd account info balance 1005.00"]).map
      (fun r => (r.action, r.pl, r.balanceAfterClose)) =
    [(some (S "Open"), none, none),
     (some (S "Close"), some 5, some 1005)] := by decide

theorem updateAt_length (j : List JournalRecord) (i : Nat)
    (f : JournalRecord → JournalRecord) : (updateAt j i f).length = j.length := by
  induction j generalizing i with
  | nil => rfl
  | cons r rs ih =>
    cases i with
    | zero => rfl
    | succ n => simp [updateAt, ih]

theorem updateAt_get?_ne (j : List JournalRecord) (i k : Nat)
    (f : JournalRecord → JournalRecord) (h : k ≠ i) :
    (updateAt j i f).get? k = j.get? k := by
  induction j generalizing i k with
  | nil => rfl
  | cons r rs ih =>
    cases i with
    | zero =>
      cases k with
      | zero => exact absurd rfl h
      | succ m => rfl
    | succ n =>
      cases k with
      | zero => rfl
      | succ m => simpa [updateAt] using ih n m (fun hh => h (by omega))

theorem updateAt_get?_self (j : List JournalRecord) (i : Nat)
    (f : JournalRecord → JournalRecord) (r : JournalRecord)
    (h : j.get? i = some r) : (updateAt j i f).get? i = some (f r) := by
  induction j generalizing i with
  | nil => simp [List.get?] at h
  | cons a rs ih =>
    cases i with
    | zero => simp_all [updateAt]
    | succ n => simpa [updateAt] using ih n (by simpa using h)

theorem updateAt_append (xs ys : List JournalRecord) (k : Nat)
    (f : JournalRecord → JournalRecord) :
    updateAt (xs ++ ys) (xs.length + k) f = xs ++ updateAt ys k f := by
  induction xs with
  | nil => simp
  | cons a l ih => simpa [updateAt, Nat.succ_add] using ih

theorem get?_append_len (xs ys : List JournalRecord) (k : Nat) :
    (xs ++ ys).get? (xs.length + k) = ys.get? k := by
  induction xs with
  | nil => simp
  | cons a l ih => simpa [Nat.succ_add] using ih

theorem get?_append_of_some (xs ys : List JournalRecord) (i : Nat)
    (r : JournalRecord) (h : xs.get? i = some r) : (xs ++ ys).get? i = some r := by
  induction xs generalizing i with
  | nil => simp [List.get?] at h
  | cons a l ih =>
    cases i with
    | zero => simpa using h
    | succ n => simpa using ih n (by simpa using h)

theorem findLastIdx_append (p : JournalRecord → Bool) (xs ys : List JournalRecord) :
    findLastIdx p (xs ++ ys) =
      match findLastIdx p ys with
      | some i => some (xs.length + i)
      | none => findLastIdx p xs := by
  induction xs with
  | nil => cases h : findLastIdx p ys <;> simp [h, findLastIdx]
  | cons a l ih =>
    show findLastIdx p (a :: (l ++ ys)) = _
    cases h : findLastIdx p ys with
    | some i =>
      simp only [findLastIdx, ih, h]
      simp [Nat.succ_add]
    | none =>
      simp only [findLastIdx, ih, h]

theorem findLastIdx_spec (p : JournalRecord → Bool) (j : List JournalRecord)
    (i : Nat) (h : findLastIdx p j = some i) :
    ∃ r, j.get? i = some r ∧ p r = true := by
  induction j generalizing i with
  | nil => simp [findLastIdx] at h
  | cons a l ih =>
    rw [findLastIdx] at h
    cases hl : findLastIdx p l with
    | some k =>
      rw [hl] at h
      cases h
      obtain ⟨r, hr, hp⟩ := ih k hl
      exact ⟨r, by simpa using hr, hp⟩
    | none =>
      rw [hl] at h
      by_cases hp : p a
      · rw [if_pos hp] at h
        cases h
        exact ⟨a, rfl, hp⟩
      · rw [if_neg hp] at h
        cases h

theorem stepBalUpd_noBalance (s : BState) (ts : Str) (b : ℚ)
    (h : s.lastKnownBalance = none) :
    stepEvent s (.balUpd ts b) = { s with lastKnownBalance := some b } := by
  simp [stepEvent, h]

theorem stepBalUpd_emptyQueue_eq (s : BState) (ts : Str) (b lk : ℚ)
    (h : s.lastKnownBalance = some lk) (hq : s.pendingPl = []) (he : b = lk) :
    stepEvent s (.balUpd ts b) = { s with lastKnownBalance := some b } := by
  simp [stepEvent, h, hq, he]

theorem stepBalUpd_emptyQueue_ne (s : BState) (ts : Str) (b lk : ℚ)
    (h : s.lastKnownBalance = some lk) (hq : s.pendingPl = []) (he : b ≠ lk) :
    stepEvent s (.balUpd ts b) =
      { s with
        advisories := s.advisories ++ [.drift ts (round2 (qSub b lk))]
        lastKnownBalance := some b } := by
  simp [stepEvent, h, hq, he]

theorem stepBalUpd_attrib (s : BState) (ts : Str) (b lk : ℚ) (cid i : Nat)
    (h : s.lastKnownBalance = some lk) (hq : s.pendingPl ≠ [])
    (hfa : firstAttributable s.journal s.pendingPl = some (cid, i)) :
    stepEvent s (.balUpd ts b) =
      { s with
        journal := updateAt s.journal i (fun r =>
          { r with balanceAfterClose := some b, pl := some (round2 (qSub b lk)) })
        pendingPl := s.pendingPl.erase cid
        lastKnownBalance := some b } := by
  cases hpq : s.pendingPl with
  | nil => exact absurd hpq hq
  | cons c rest =>
    rw [hpq] at hfa
    simp [stepEvent, h, hpq, hfa]

theorem stepBalUpd_fallback_eq (s : BState) (ts : Str) (b lk : ℚ)
    (h : s.lastKnownBalance = some lk) (hq : s.pendingPl ≠ [])
    (hfa : firstAttributable s.journal s.pendingPl = none) (he : b = lk) :
    stepEvent s (.balUpd ts b) = { s with lastKnownBalance := some b } := by
  cases hpq : s.pendingPl with
  | nil => exact absurd hpq hq
  | cons c rest =>
    rw [hpq] at hfa
    simp [stepEvent, h, hpq, hfa, he]

theorem stepBalUpd_fallback_ne (s : BState) (ts : Str) (b lk : ℚ)
    (h : s.lastKnownBalance = some lk) (hq : s.pendingPl ≠ [])
    (hfa : firstAttributable s.journal s.pendingPl = none) (he : b ≠ lk) :
    stepEvent s (.balUpd ts b) =
      { s with
        advisories := s.advisories ++ [.ambiguous ts (round2 (qSub b lk)) s.pendingPl]
        pendingPl := []
        lastKnownBalance := some b } := by
  cases hpq : s.pendingPl with
  | nil => exact absurd hpq hq
  | cons c rest =>
    rw [hpq] at hfa
    simp [stepEvent, h, hpq, hfa, he]

/-- All fields but `balanceAfterClose` and `pl` agree. -/
def sameExceptPl (r r' : JournalRecord) : Prop :=
  r.timestamp = r'.timestamp ∧ r.orderId = r'.orderId ∧ r.action = r'.action ∧
  r.direction = r'.direction ∧ r.type = r'.type ∧
  r.instrument = r'.instrument ∧ r.volume = r'.volume ∧ r.price = r'.price ∧
  r.tp = r'.tp ∧ r.sl = r'.sl ∧ r.notes = r'.notes

theorem sameExceptPl_refl (r : JournalRecord) : sameExceptPl r r := by
  simp [sameExceptPl]

/--
C7: a `TradeBalanceUpdate` with balance `b` appends no record (the journal
length is unchanged), sets the running balance to `b`, and mutates at most
one already-appended record, touching only its P/L and balance-after-close
fields; every other record is untouched.
-/
theorem balance_update_frame (s : BState) (ts : Str) (b : ℚ) :
    (stepEvent s (.balUpd ts b)).journal.length = s.journal.length ∧
    (stepEvent s (.balUpd ts b)).lastKnownBalance = some b ∧
    ∃ i, (∀ k, k ≠ i → (stepEvent s (.balUpd ts b)).journal.get? k = s.journal.get? k) ∧
      ∀ r r', s.journal.get? i = some r →
        (stepEvent s (.balUpd ts b)).journal.get? i = some r' → sameExceptPl r r' := by
  have triv : ∀ s' : BState, s'.journal = s.journal →
      s'.lastKnownBalance = some b →
      (s'.journal.length = s.journal.length ∧ s'.lastKnownBalance = some b ∧
       ∃ i, (∀ k, k ≠ i → s'.journal.get? k = s.journal.get? k) ∧
        ∀ r r', s.journal.get? i = some r → s'.journal.get? i = some r' →
          sameExceptPl r r') := by
    intro s' hj hl
    refine ⟨by rw [hj], hl, 0, fun k _ => by rw [hj], fun r r' h1 h2 => ?_⟩
    rw [hj, h1] at h2
    cases h2
    exact sameExceptPl_refl r
  cases hlk : s.lastKnownBalance with
  | none => exact triv _ (by rw [stepBalUpd_noBalance s ts b hlk]) (by rw [stepBalUpd_noBalance s ts b hlk])
  | some lk =>
    cases hpq : s.pendingPl with
    | nil =>
      by_cases he : b = lk
      · exact triv _ (by rw [stepBalUpd_emptyQueue_eq s ts b lk hlk hpq he])
          (by rw [stepBalUpd_emptyQueue_eq s ts b lk hlk hpq he])
      · exact triv _ (by rw [stepBalUpd_emptyQueue_ne s ts b lk hlk hpq he])
          (by rw [stepBalUpd_emptyQueue_ne s ts b lk hlk hpq he])
    | cons c rest =>
      have hq : s.pendingPl ≠ [] := by rw [hpq]; exact (by simp)
      cases hfa : firstAttributable s.journal s.pendingPl with
      | none =>
        by_cases he : b = lk
        · exact triv _ (by rw [stepBalUpd_fallback_eq s ts b lk hlk hq hfa he])
            (by rw [stepBalUpd_fallback_eq s ts b lk hlk hq hfa he])
        · exact triv _ (by rw [stepBalUpd_fallback_ne s ts b lk hlk hq hfa he])
            (by rw [stepBalUpd_fallback_ne s ts b lk hlk hq hfa he])
      | some ci =>
        obtain ⟨cid, i⟩ := ci
        rw [stepBalUpd_attrib s ts b lk cid i hlk hq hfa]
        refine ⟨updateAt_length _ _ _, rfl, i,
          fun k hk => updateAt_get?_ne _ _ _ _ hk, fun r r' h1 h2 => ?_⟩
        rw [updateAt_get?_self _ _ _ _ h1] at h2
        cases h2
        cases r
        simp [sameExceptPl]

/--
C7 witness: the frame property evaluated on a concrete one-record state and
one concrete balance update.
-/
theorem balance_update_frame_witness :
    (stepEvent { initState with
        journal := [closeRecord (S "t0") 1 (S "buy") 1 1 (S "EURUSD") (S "tp")]
        lastKnownBalance := some 1000
        pendingPl := [1] }
      (.balUpd (S "t1") 1005)).journal.length =
    [closeRecord (S "t0") 1 (S "buy") 1 1 (S "EURUSD") (S "tp")].length :=
  (balance_update_frame _ (S "t1") 1005).1

/--
C8: `ServiceBalanceInit` seeds the running balance only when none is set;
when a running balance already exists the whole state (balance, maps, queue,
output, advisories) is left unchanged.
-/
theorem balance_init_only_first (s : BState) (ts : Str) (b : ℚ) :
    (s.lastKnownBalance = none →
      stepEvent s (.balInit ts b) = { s with lastKnownBalance := some b }) ∧
    (∀ q, s.lastKnownBalance = some q → stepEvent s (.balInit ts b) = s) := by
  constructor
  · intro h
    simp [stepEvent, h]
  · intro q h
    simp [stepEvent, h]

/-- C8 witness: both cases of `balance_init_only_first` at concrete states. -/
theorem balance_init_only_first_witness :
    stepEvent initState (.balInit (S "t0") 2) =
      { initState with lastKnownBalance := some 2 } ∧
    stepEvent { initState with lastKnownBalance := some 3 } (.balInit (S "t0") 2) =
      { initState with lastKnownBalance := some 3 } :=
  ⟨(balance_init_only_first initState (S "t0") 2).1 rfl,
   (balance_init_only_first { initState with lastKnownBalance := some 3 }
      (S "t0") 2).2 3 rfl⟩

/--
C6: on `OrderOpened`, if the id is in the pending map the appended `Open`
record has type "Limit Hit" with TP/SL copied from the pending record and
the pending entry is removed; if not, the record is still appended, with
type "Market?/Gap?" and null TP and SL.
-/
theorem open_event_pending_behavior (s : BState) (ts : Str) (id : Nat)
    (dir : Str) (vol price : ℚ) (instr : Str) :
    (∀ p, s.pending id = some p →
      (stepEvent s (.opened ts id dir vol price instr)).journal =
        s.journal ++ [openRecord ts id dir vol price instr (S "Limit Hit") p.tp p.sl] ∧
      (stepEvent s (.opened ts id dir vol price instr)).pending id = none) ∧
    (s.pending id = none →
      (stepEvent s (.opened ts id dir vol price instr)).journal =
        s.journal ++ [openRecord ts id dir vol price instr (S "Market?/Gap?") none none]) := by
  constructor
  · intro p h
    constructor
    · simp [stepEvent, h]
    · simp [stepEvent, h]
  · intro h
    simp [stepEvent, h]

/--
C6 witness: a placed order opened as "Limit Hit" with copied TP/SL, and an
orphan open recorded as "Market?/Gap?" with null TP/SL.
-/
theorem open_event_pending_behavior_witness :
    ((stepEvent (stepEvent initState
        (.placeMod (S "t0") 7 (S "buy") (some (S "limit")) 1 2 3 4 (S "EURUSD")))
        (.opened (S "t1") 7 (S "buy") 1 2 (S "EURUSD"))).journal.map (fun r => (r.type, r.tp, r.sl)) =
      [(some (S "Limit"), some 3, some 4),
       (some (S "Limit Hit"), some 3, some 4)]) ∧
    ((stepEvent initState (.opened (S "t1") 9 (S "sell") 1 2 (S "EURUSD"))).journal.map
        (fun r => (r.type, r.tp, r.sl)) =
      [(some (S "Market?/Gap?"), none, none)]) := by
  have h1 := (open_event_pending_behavior
      (stepEvent initState
        (.placeMod (S "t0") 7 (S "buy") (some (S "limit")) 1 2 3 4 (S "EURUSD")))
      (S "t1") 7 (S "buy") 1 2 (S "EURUSD")).1
      (placeModRecord (S "t0") 7 (S "buy") (some (S "limit")) 1 2 3 4 (S "EURUSD"))
      (by decide)
  have h2 := (open_event_pending_behavior initState
      (S "t1") 9 (S "sell") 1 2 (S "EURUSD")).2 rfl
  constructor
  · rw [h1.1]
    decide
  · rw [h2]
    decide

theorem isUnassignedClose_closeRecord_self (id : Nat) (ts d i cb : Str) (v p : ℚ) :
    isUnassignedClose id (closeRecord ts id d v p i cb) = true := by
  simp [isUnassignedClose, closeRecord, emptyRec]

theorem isUnassignedClose_closeRecord_ne (cid id : Nat) (h : id ≠ cid)
    (ts d i cb : Str) (v p : ℚ) :
    isUnassignedClose cid (closeRecord ts id d v p i cb) = false := by
  simp [isUnassignedClose, closeRecord, emptyRec, h]

theorem isUnassignedClose_assigned (cid : Nat) (r : JournalRecord) (b q : ℚ) :
    isUnassignedClose cid { r with balanceAfterClose := some b, pl := some q } = false := by
  simp [isUnassignedClose]

theorem updateAt_append_zero (xs ys : List JournalRecord)
    (f : JournalRecord → JournalRecord) :
    updateAt (xs ++ ys) xs.length f = xs ++ updateAt ys 0 f := by
  simpa using updateAt_append xs ys 0 f

/--
Scenario shared by the FIFO-attribution claims: from a state with running
balance `R` and an empty attribution queue, two closes (ids `A` then `B`) and
one balance update `b1` assign P/L and balance-after-close to the `Close`
record of `A`, leave `B` queued, set the running balance to `b1`, and emit no
advisory.
-/
theorem close_close_upd_components (s : BState) (R b1 : ℚ) (A B : Nat)
    (ts1 ts2 ts3 d1 d2 i1 i2 cb1 cb2 : Str) (v1 p1 v2 p2 : ℚ)
    (hAB : A ≠ B) (hlk : s.lastKnownBalance = some R) (hq : s.pendingPl = []) :
    (stepEvent (stepEvent (stepEvent s (.closed ts1 A d1 v1 p1 i1 cb1))
        (.closed ts2 B d2 v2 p2 i2 cb2)) (.balUpd ts3 b1)).journal =
      s.journal ++
        [{ closeRecord ts1 A d1 v1 p1 i1 cb1 with
            balanceAfterClose := some b1, pl := some (round2 (qSub b1 R)) },
         closeRecord ts2 B d2 v2 p2 i2 cb2] ∧
    (stepEvent (stepEvent (stepEvent s (.closed ts1 A d1 v1 p1 i1 cb1))
        (.closed ts2 B d2 v2 p2 i2 cb2)) (.balUpd ts3 b1)).pendingPl = [B] ∧
    (stepEvent (stepEvent (stepEvent s (.closed ts1 A d1 v1 p1 i1 cb1))
        (.closed ts2 B d2 v2 p2 i2 cb2)) (.balUpd ts3 b1)).lastKnownBalance = some b1 ∧
    (stepEvent (stepEvent (stepEvent s (.closed ts1 A d1 v1 p1 i1 cb1))
        (.closed ts2 B d2 v2 p2 i2 cb2)) (.balUpd ts3 b1)).advisories = s.advisories := by
  have e2 : stepEvent (stepEvent s (.closed ts1 A d1 v1 p1 i1 cb1))
      (.closed ts2 B d2 v2 p2 i2 cb2) =
      { s with
        openPos := fun k => if k = B then none else if k = A then none else s.openPos k
        pendingPl := (s.pendingPl ++ [A]) ++ [B]
        journal := (s.journal ++ [closeRecord ts1 A d1 v1 p1 i1 cb1]) ++
          [closeRecord ts2 B d2 v2 p2 i2 cb2] } := rfl
  rw [e2]
  have hfa : firstAttributable
      ((s.journal ++ [closeRecord ts1 A d1 v1 p1 i1 cb1]) ++
        [closeRecord ts2 B d2 v2 p2 i2 cb2]) ((s.pendingPl ++ [A]) ++ [B]) =
      some (A, s.journal.length) := by
    rw [hq]
    have hf2 : findLastIdx (isUnassignedClose A)
        [closeRecord ts1 A d1 v1 p1 i1 cb1, closeRecord ts2 B d2 v2 p2 i2 cb2] =
        some 0 := by
      simp [findLastIdx, isUnassignedClose_closeRecord_self,
        isUnassignedClose_closeRecord_ne A B (Ne.symm hAB)]
    have hbig := findLastIdx_append (isUnassignedClose A) s.journal
      [closeRecord ts1 A d1 v1 p1 i1 cb1, closeRecord ts2 B d2 v2 p2 i2 cb2]
    rw [hf2] at hbig
    simp only [List.append_assoc, List.singleton_append] at hbig ⊢
    simp [firstAttributable, hbig]
  have e3 := stepBalUpd_attrib
    { s with
      openPos := fun k => if k = B then none else if k = A then none else s.openPos k
      pendingPl := (s.pendingPl ++ [A]) ++ [B]
      journal := (s.journal ++ [closeRecord ts1 A d1 v1 p1 i1 cb1]) ++
        [closeRecord ts2 B d2 v2 p2 i2 cb2] }
    ts3 b1 R A s.journal.length (by simpa using hlk) (by simp) (by simpa using hfa)
  rw [e3]
  refine ⟨?_, ?_, rfl, rfl⟩
  · show updateAt ((s.journal ++ [closeRecord ts1 A d1 v1 p1 i1 cb1]) ++
        [closeRecord ts2 B d2 v2 p2 i2 cb2]) s.journal.length _ = _
    rw [List.append_assoc, updateAt_append_zero]
    rfl
  · show ((s.pendingPl ++ [A]) ++ [B]).erase A = [B]
    rw [hq]
    simp [List.erase_cons_head]

/--
C1 counterexample: closes for ids 1 and 2 followed by one balance update
whose balance differs from the running balance.  Contrary to the claim, the
`Close` record of the oldest id 1 receives non-null P/L 5.00, no advisory at
all is emitted, and the queue still holds id 2 (it is not cleared).
-/
theorem ambiguity_fallback_counterexample :
    (((runLog
        [S "2024.01.01 10:00:00.000 Service '123': account balance 1000.00 USD",
         S "2024.01.01 10:00:01.000 Trade '123': close event #1 buy 1.00 lots EURUSD at 1.1000 by tp",
         S "2024.01.01 10:00:02.000 Trade '123': close event #2 sell 1.00 lots EURUSD at 1.2000 by sl",
         S "2024.01.01 10:00:03.000 Trade '123': upd account info balance 1005.00"]).1.journal.map
        (fun r => (r.orderId, r.action, r.pl))),
     (runLog
        [S "2024.01.01 10:00:00.000 Service '123': account balance 1000.00 USD",
         S "2024.01.01 10:00:01.000 Trade '123': close event #1 buy 1.00 lots EURUSD at 1.1000 by tp",
         S "2024.01.01 10:00:02.000 Trade '123': close event #2 sell 1.00 lots EURUSD at 1.2000 by sl",
         S "2024.01.01 10:00:03.000 Trade '123': upd account info balance 1005.00"]).1.advisories,
     (runLog
        [S "2024.01.01 10:00:00.000 Service '123': account balance 1000.00 USD",
         S "2024.01.01 10:00:01.000 Trade '123': close event #1 buy 1.00 lots EURUSD at 1.1000 by tp",
         S "2024.01.01 10:00:02.000 Trade '123': close event #2 sell 1.00 lots EURUSD at 1.2000 by sl",
         S "2024.01.01 10:00:03.000 Trade '123': upd account info balance 1005.00"]).1.pendingPl) =
    ([(some 1, some (S "Close"), some 5),
      (some 2, some (S "Close"), none)],
     [], [2]) := by decide

/--
C1 amended: with closes for distinct ids `A` then `B` queued and a single
balance update `b1`, the most recent `Close` record of the OLDEST id `A`
receives `P/L = round(b1 - R, 2)` and `balanceAfterClose = b1`, `A` alone is
removed (leaving `B` queued), and no advisory is emitted; the
clear-queue-and-advise fallback fires only when no queued id has an
unassigned `Close` record.
-/
theorem single_update_attributes_oldest (s : BState) (R b1 : ℚ) (A B : Nat)
    (ts1 ts2 ts3 d1 d2 i1 i2 cb1 cb2 : Str) (v1 p1 v2 p2 : ℚ)
    (hAB : A ≠ B) (hlk : s.lastKnownBalance = some R) (hq : s.pendingPl = []) :
    (stepEvent (stepEvent (stepEvent s (.closed ts1 A d1 v1 p1 i1 cb1))
        (.closed ts2 B d2 v2 p2 i2 cb2)) (.balUpd ts3 b1)).journal.get?
        s.journal.length =
      some { closeRecord ts1 A d1 v1 p1 i1 cb1 with
              balanceAfterClose := some b1, pl := some (round2 (b1 - R)) } ∧
    (stepEvent (stepEvent (stepEvent s (.closed ts1 A d1 v1 p1 i1 cb1))
        (.closed ts2 B d2 v2 p2 i2 cb2)) (.balUpd ts3 b1)).pendingPl = [B] ∧
    (stepEvent (stepEvent (stepEvent s (.closed ts1 A d1 v1 p1 i1 cb1))
        (.closed ts2 B d2 v2 p2 i2 cb2)) (.balUpd ts3 b1)).advisories =
      s.advisories := by
  obtain ⟨hj, hp, hl, ha⟩ := close_close_upd_components s R b1 A B
    ts1 ts2 ts3 d1 d2 i1 i2 cb1 cb2 v1 p1 v2 p2 hAB hlk hq
  rw [qSub_eq] at hj
  refine ⟨?_, hp, ha⟩
  rw [hj]
  simpa using get?_append_len s.journal
    [{ closeRecord ts1 A d1 v1 p1 i1 cb1 with
        balanceAfterClose := some b1, pl := some (round2 (b1 - R)) },
     closeRecord ts2 B d2 v2 p2 i2 cb2] 0

/--
C1 amended witness: the single-update scenario at running balance 1000, ids
1 and 2, update balance 1005.
-/
theorem single_update_attributes_oldest_witness :
    (1 : Nat) ≠ 2 ∧
    round2 ((1005 : ℚ) - 1000) = 5 ∧
    ((stepEvent (stepEvent (stepEvent { initState with lastKnownBalance := some (1000 : ℚ) }
        (.closed (S "t1") 1 (S "buy") 1 (11/10) (S "EURUSD") (S "tp")))
        (.closed (S "t2") 2 (S "sell") 1 (6/5) (S "EURUSD") (S "sl")))
        (.balUpd (S "t3") 1005)).journal.get? 0 =
      some { closeRecord (S "t1") 1 (S "buy") 1 (11/10) (S "EURUSD") (S "tp") with
              balanceAfterClose := some (1005 : ℚ),
              pl := some (round2 ((1005 : ℚ) - 1000)) }) ∧
    (stepEvent (stepEvent (stepEvent { initState with lastKnownBalance := some (1000 : ℚ) }
        (.closed (S "t1") 1 (S "buy") 1 (11/10) (S "EURUSD") (S "tp")))
        (.closed (S "t2") 2 (S "sell") 1 (6/5) (S "EURUSD") (S "sl")))
        (.balUpd (S "t3") 1005)).pendingPl = [2] :=
  ⟨by decide, by with_unfolding_all rfl,
   (single_update_attributes_oldest
      { initState with lastKnownBalance := some (1000 : ℚ) } 1000 1005 1 2
      (S "t1") (S "t2") (S "t3") (S "buy") (S "sell") (S "EURUSD") (S "EURUSD")
      (S "tp") (S "sl") 1 (11/10) 1 (6/5) (by decide) rfl rfl).1,
   (single_update_attributes_oldest
      { initState with lastKnownBalance := some (1000 : ℚ) } 1000 1005 1 2
      (S "t1") (S "t2") (S "t3") (S "buy") (S "sell") (S "EURUSD") (S "EURUSD")
      (S "tp") (S "sl") 1 (11/10) 1 (6/5) (by decide) rfl rfl).2.1⟩

/--
C2: closes for distinct ids `A` then `B` followed by two balance updates
`b1`, `b2` from running balance `R`: the `Close` record of `A` gets
`P/L = round(b1 - R, 2)` with `balanceAfterClose = b1` from the first update,
and the `Close` record of `B` gets `P/L = round(b2 - b1, 2)` with
`balanceAfterClose = b2` from the second.
-/
theorem fifo_attribution (s : BState) (R b1 b2 : ℚ) (A B : Nat)
    (ts1 ts2 ts3 ts4 d1 d2 i1 i2 cb1 cb2 : Str) (v1 p1 v2 p2 : ℚ)
    (hAB : A ≠ B) (hlk : s.lastKnownBalance = some R) (hq : s.pendingPl = []) :
    (stepEvent (stepEvent (stepEvent (stepEvent s (.closed ts1 A d1 v1 p1 i1 cb1))
        (.closed ts2 B d2 v2 p2 i2 cb2)) (.balUpd ts3 b1)) (.balUpd ts4 b2)).journal.get?
        s.journal.length =
      some { closeRecord ts1 A d1 v1 p1 i1 cb1 with
              balanceAfterClose := some b1, pl := some (round2 (b1 - R)) } ∧
    (stepEvent (stepEvent (stepEvent (stepEvent s (.closed ts1 A d1 v1 p1 i1 cb1))
        (.closed ts2 B d2 v2 p2 i2 cb2)) (.balUpd ts3 b1)) (.balUpd ts4 b2)).journal.get?
        (s.journal.length + 1) =
      some { closeRecord ts2 B d2 v2 p2 i2 cb2 with
              balanceAfterClose := some b2, pl := some (round2 (b2 - b1)) } := by
  obtain ⟨hj, hp, hl, ha⟩ := close_close_upd_components s R b1 A B
    ts1 ts2 ts3 d1 d2 i1 i2 cb1 cb2 v1 p1 v2 p2 hAB hlk hq
  have hfa2 : firstAttributable
      (stepEvent (stepEvent (stepEvent s (.closed ts1 A d1 v1 p1 i1 cb1))
        (.closed ts2 B d2 v2 p2 i2 cb2)) (.balUpd ts3 b1)).journal
      (stepEvent (stepEvent (stepEvent s (.closed ts1 A d1 v1 p1 i1 cb1))
        (.closed ts2 B d2 v2 p2 i2 cb2)) (.balUpd ts3 b1)).pendingPl =
      some (B, s.journal.length + 1) := by
    rw [hj, hp]
    have hf2 : findLastIdx (isUnassignedClose B)
        [{ closeRecord ts1 A d1 v1 p1 i1 cb1 with
            balanceAfterClose := some b1, pl := some (round2 (qSub b1 R)) },
         closeRecord ts2 B d2 v2 p2 i2 cb2] = some 1 := by
      simp [findLastIdx, isUnassignedClose_closeRecord_self, isUnassignedClose_assigned]
    have hbig := findLastIdx_append (isUnassignedClose B) s.journal
      [{ closeRecord ts1 A d1 v1 p1 i1 cb1 with
          balanceAfterClose := some b1, pl := some (round2 (qSub b1 R)) },
       closeRecord ts2 B d2 v2 p2 i2 cb2]
    rw [hf2] at hbig
    simp [firstAttributable, hbig]
  have e4 := stepBalUpd_attrib
    (stepEvent (stepEvent (stepEvent s (.closed ts1 A d1 v1 p1 i1 cb1))
      (.closed ts2 B d2 v2 p2 i2 cb2)) (.balUpd ts3 b1))
    ts4 b2 b1 B (s.journal.length + 1) hl (by rw [hp]; simp) hfa2
  rw [e4]
  have hjj : updateAt
      (stepEvent (stepEvent (stepEvent s (.closed ts1 A d1 v1 p1 i1 cb1))
        (.closed ts2 B d2 v2 p2 i2 cb2)) (.balUpd ts3 b1)).journal
      (s.journal.length + 1)
      (fun r =>
        { r with balanceAfterClose := some b2, pl := some (round2 (qSub b2 b1)) }) =
      s.journal ++
        [{ closeRecord ts1 A d1 v1 p1 i1 cb1 with
            balanceAfterClose := some b1, pl := some (round2 (qSub b1 R)) },
         { closeRecord ts2 B d2 v2 p2 i2 cb2 with
            balanceAfterClose := some b2, pl := some (round2 (qSub b2 b1)) }] := by
    rw [hj, updateAt_append]
    rfl
  dsimp only
  rw [hjj]
  simp only [qSub_eq]
  constructor
  · simpa using get?_append_len s.journal
      [{ closeRecord ts1 A d1 v1 p1 i1 cb1 with
          balanceAfterClose := some b1, pl := some (round2 (b1 - R)) },
       { closeRecord ts2 B d2 v2 p2 i2 cb2 with
          balanceAfterClose := some b2, pl := some (round2 (b2 - b1)) }] 0
  · simpa using get?_append_len s.journal
      [{ closeRecord ts1 A d1 v1 p1 i1 cb1 with
          balanceAfterClose := some b1, pl := some (round2 (b1 - R)) },
       { closeRecord ts2 B d2 v2 p2 i2 cb2 with
          balanceAfterClose := some b2, pl := some (round2 (b2 - b1)) }] 1

/--
C2 witness: FIFO attribution at running balance 1000 with updates 1005 then
1003: id 1 gets P/L round(5.00), id 2 gets P/L round(-2.00).
-/
theorem fifo_attribution_witness :
    (1 : Nat) ≠ 2 ∧
    ((stepEvent (stepEvent (stepEvent (stepEvent
        { initState with lastKnownBalance := some (1000 : ℚ) }
        (.closed (S "t1") 1 (S "buy") 1 (11/10) (S "EURUSD") (S "tp")))
        (.closed (S "t2") 2 (S "sell") 1 (6/5) (S "EURUSD") (S "sl")))
        (.balUpd (S "t3") 1005)) (.balUpd (S "t4") 1003)).journal.get? 0 =
      some { closeRecord (S "t1") 1 (S "buy") 1 (11/10) (S "EURUSD") (S "tp") with
              balanceAfterClose := some (1005 : ℚ),
              pl := some (round2 ((1005 : ℚ) - 1000)) }) ∧
    ((stepEvent (stepEvent (stepEvent (stepEvent
        { initState with lastKnownBalance := some (1000 : ℚ) }
        (.closed (S "t1") 1 (S "buy") 1 (11/10) (S "EURUSD") (S "tp")))
        (.closed (S "t2") 2 (S "sell") 1 (6/5) (S "EURUSD") (S "sl")))
        (.balUpd (S "t3") 1005)) (.balUpd (S "t4") 1003)).journal.get? 1 =
      some { closeRecord (S "t2") 2 (S "sell") 1 (6/5) (S "EURUSD") (S "sl") with
              balanceAfterClose := some (1003 : ℚ),
              pl := some (round2 ((1003 : ℚ) - 1005)) }) :=
  ⟨by decide,
   (fifo_attribution { initState with lastKnownBalance := some (1000 : ℚ) }
      1000 1005 1003 1 2 (S "t1") (S "t2") (S "t3") (S "t4")
      (S "buy") (S "sell") (S "EURUSD") (S "EURUSD") (S "tp") (S "sl")
      1 (11/10) 1 (6/5) (by decide) rfl rfl).1,
   (fifo_attribution { initState with lastKnownBalance := some (1000 : ℚ) }
      1000 1005 1003 1 2 (S "t1") (S "t2") (S "t3") (S "t4")
      (S "buy") (S "sell") (S "EURUSD") (S "EURUSD") (S "tp") (S "sl")
      1 (11/10) 1 (6/5) (by decide) rfl rfl).2⟩

theorem firstAttributable_spec (j : List JournalRecord) (q : List Nat)
    (cid i : Nat) (h : firstAttributable j q = some (cid, i)) :
    ∃ c, j.get? i = some c ∧ isUnassignedClose cid c = true := by
  induction q with
  | nil => simp [firstAttributable] at h
  | cons a rest ih =>
    rw [firstAttributable] at h
    cases hf : findLastIdx (isUnassignedClose a) j with
    | some k =>
      rw [hf] at h
      cases h
      exact findLastIdx_spec _ _ _ hf
    | none =>
      rw [hf] at h
      exact ih h

/-- Every single event preserves an already-assigned (non-null) P/L field. -/
theorem stepEvent_preserves_pl (s : BState) (ev : Event) (i : Nat)
    (r : JournalRecord) (v : ℚ) (h : s.journal.get? i = some r)
    (hv : r.pl = some v) :
    ∃ r', (stepEvent s ev).journal.get? i = some r' ∧ r'.pl = some v := by
  cases ev with
  | balInit ts b =>
    cases hl : s.lastKnownBalance with
    | none => exact ⟨r, by simpa [stepEvent, hl] using h, hv⟩
    | some q => exact ⟨r, by simpa [stepEvent, hl] using h, hv⟩
  | balUpd ts b =>
    cases hl : s.lastKnownBalance with
    | none => exact ⟨r, by rw [stepBalUpd_noBalance s ts b hl]; exact h, hv⟩
    | some lk =>
      cases hpq : s.pendingPl with
      | nil =>
        by_cases he : b = lk
        · exact ⟨r, by rw [stepBalUpd_emptyQueue_eq s ts b lk hl hpq he]; exact h, hv⟩
        · exact ⟨r, by rw [stepBalUpd_emptyQueue_ne s ts b lk hl hpq he]; exact h, hv⟩
      | cons c rest =>
        have hq : s.pendingPl ≠ [] := by rw [hpq]; simp
        cases hfa : firstAttributable s.journal s.pendingPl with
        | none =>
          by_cases he : b = lk
          · exact ⟨r, by rw [stepBalUpd_fallback_eq s ts b lk hl hq hfa he]; exact h, hv⟩
          · exact ⟨r, by rw [stepBalUpd_fallback_ne s ts b lk hl hq hfa he]; exact h, hv⟩
        | some ci =>
          obtain ⟨cid, i0⟩ := ci
          rw [stepBalUpd_attrib s ts b lk cid i0 hl hq hfa]
          by_cases hii : i = i0
          · exfalso
            obtain ⟨c, hc, hpc⟩ := firstAttributable_spec s.journal s.pendingPl cid i0 hfa
            rw [hii] at h
            rw [h] at hc
            injection hc with hrc
            subst hrc
            simp only [isUnassignedClose, Bool.and_eq_true, beq_iff_eq] at hpc
            have hnone : r.pl = none := hpc.2
            rw [hv] at hnone
            exact Option.noConfusion hnone
          · exact ⟨r, by
              dsimp only
              rw [updateAt_get?_ne s.journal i0 i _ hii]
              exact h, hv⟩
  | placeMod ts id dir kind vol price tp sl instr =>
    exact ⟨r, get?_append_of_some _ _ _ _ h, hv⟩
  | opened ts id dir vol price instr =>
    cases hp : s.pending id with
    | some p =>
      exact ⟨r, by
        have e : (stepEvent s (.opened ts id dir vol price instr)).journal =
            s.journal ++ [openRecord ts id dir vol price instr (S "Limit Hit") p.tp p.sl] := by
          simp [stepEvent, hp]
        rw [e]
        exact get?_append_of_some _ _ _ _ h, hv⟩
    | none =>
      exact ⟨r, by
        have e : (stepEvent s (.opened ts id dir vol price instr)).journal =
            s.journal ++ [openRecord ts id dir vol price instr (S "Market?/Gap?") none none] := by
          simp [stepEvent, hp]
        rw [e]
        exact get?_append_of_some _ _ _ _ h, hv⟩
  | closed ts id dir vol price instr cb =>
    exact ⟨r, get?_append_of_some _ _ _ _ h, hv⟩
  | closeAllOk ts id d pstr =>
    cases hf : findLastIdx
        (fun r0 => r0.orderId == some id && r0.action == some (S "Close")) s.journal with
    | some i0 =>
      have e : (stepEvent s (.closeAllOk ts id d pstr)).journal =
          updateAt s.journal i0 (fun r0 =>
            { r0 with notes := r0.notes ++ S ". Close OK @ " ++ pstr }) := by
        simp [stepEvent, hf]
      by_cases hii : i = i0
      · subst hii
        refine ⟨{ r with notes := r.notes ++ S ". Close OK @ " ++ pstr }, ?_, by simpa using hv⟩
        rw [e]
        exact updateAt_get?_self _ _ _ _ h
      · refine ⟨r, ?_, hv⟩
        rw [e, updateAt_get?_ne s.journal i0 i _ hii]
        exact h
    | none =>
      have e : (stepEvent s (.closeAllOk ts id d pstr)).journal =
          s.journal ++ [closeOkRecord ts id pstr] := by
        simp [stepEvent, hf]
      exact ⟨r, by rw [e]; exact get?_append_of_some _ _ _ _ h, hv⟩
  | deleteReq ts id d =>
    exact ⟨r, get?_append_of_some _ _ _ _ h, hv⟩
  | deleteOk ts id d =>
    exact ⟨r, get?_append_of_some _ _ _ _ h, hv⟩
  | closeAllReq ts =>
    exact ⟨r, get?_append_of_some _ _ _ _ h, hv⟩

/--
C4 counterexample: when the same order id closes twice, each close followed
by a balance update, the final output holds TWO `(orderId 1, Close)` records
both carrying non-null P/L — the claimed at-most-one invariant fails.
-/
theorem duplicate_close_double_pl_counterexample :
    ((runLog
        [S "2024.01.01 10:00:00.000 Service '9': account balance 1000.00 USD",
         S "2024.01.01 10:00:01.000 Trade '9': close event #1 buy 1.00 lots EURUSD at 1.1 by tp",
         S "2024.01.01 10:00:02.000 Trade '9': upd account info balance 1005.00",
         S "2024.01.01 10:00:03.000 Trade '9': close event #1 buy 1.00 lots EURUSD at 1.2 by tp",
         S "2024.01.01 10:00:04.000 Trade '9': upd account info balance 1010.00"]).1.journal.map
      (fun r => (r.orderId, r.action, r.pl))) =
    [(some 1, some (S "Close"), some 5),
     (some 1, some (S "Close"), some 5)] := by decide

/--
C4 amended: once a record's P/L has been assigned a non-null value it is
never reassigned by any later event (attribution only ever targets a `Close`
record whose P/L is still null); with duplicate `Close` events for one id,
however, several `(orderId, Close)` records may each carry non-null P/L.
-/
theorem pl_assigned_once (s : BState) (evs : List Event) (i : Nat)
    (r : JournalRecord) (v : ℚ) (h : s.journal.get? i = some r)
    (hv : r.pl = some v) :
    ∃ r', (evs.foldl stepEvent s).journal.get? i = some r' ∧ r'.pl = some v := by
  induction evs generalizing s r with
  | nil => exact ⟨r, h, hv⟩
  | cons e es ih =>
    obtain ⟨r1, h1, hv1⟩ := stepEvent_preserves_pl s e i r v h hv
    exact ih (stepEvent s e) r1 h1 hv1

/--
C4 witness: a record with P/L 5 keeps P/L 5 across a further balance update
and a further close event.
-/
theorem pl_assigned_once_witness :
    ({ initState with
        journal := [{ emptyRec (S "t0") with
          orderId := some 1, action := some (S "Close"), pl := some (5 : ℚ) }]
        pendingPl := [1] }.journal.get? 0 =
      some { emptyRec (S "t0") with
              orderId := some 1, action := some (S "Close"), pl := some (5 : ℚ) }) ∧
    ∃ r', (([.closed (S "t1") 1 (S "buy") 1 1 (S "EURUSD") (S "tp"),
             .balUpd (S "t2") 1007].foldl stepEvent
        { initState with
          journal := [{ emptyRec (S "t0") with
            orderId := some 1, action := some (S "Close"), pl := some (5 : ℚ) }]
          pendingPl := [1] }).journal.get? 0 = some r' ∧ r'.pl = some (5 : ℚ)) :=
  ⟨rfl, pl_assigned_once _ _ 0 _ 5 rfl rfl⟩

/-- A line whose classification raises (`float()` failure on a captured group). -/
def lineRaises (l : Str) : Bool :=
  match parseEnv (pyStrip l) with
  | none => false
  | some (ts, lvl, _, msg) =>
    match classifyMsg ts lvl msg with
    | .error _ => true
    | .ok _ => false

/--
C3 counterexample: a `1.2.3` volume in an otherwise matching `open event`
line makes the whole run return an EMPTY journal — the surrounding
well-formed lines (which on their own produce two records) are discarded,
contrary to the claim that the line is skipped and the rest survives.
-/
theorem malformed_numeric_counterexample :
    generate
      [S "2024.01.01 10:00:00.000 Trade '7': open event #1 buy 1.00 lots EURUSD at 1.1000",
       S "2024.01.01 10:00:01.000 Trade '7': open event #2 buy 1.2.3 lots EURUSD at 1.1000",
       S "2024.01.01 10:00:02.000 Trade '7': open event #3 sell 2.00 lots GBPUSD at 1.3000"] = [] ∧
    (generate
      [S "2024.01.01 10:00:00.000 Trade '7': open event #1 buy 1.00 lots EURUSD at 1.1000",
       S "2024.01.01 10:00:02.000 Trade '7': open event #3 sell 2.00 lots GBPUSD at 1.3000"]).map
      (fun r => (r.orderId, r.action)) =
    [(some 1, some (S "Open")), (some 3, some (S "Open"))] := by decide

/--
C3 amended: a line whose captured numeric group fails to parse as a decimal
raises; the exception is caught at the outer boundary and the whole run
returns an empty journal, discarding the records of every other line.
-/
theorem malformed_numeric_aborts_run (pre post : List Str) (l : Str)
    (h : lineRaises l = true) : generate (pre ++ l :: post) = [] := by
  have perr : ∀ s : BState, processLine s l = .error () := by
    intro s
    unfold lineRaises at h
    unfold processLine
    cases henv : parseEnv (pyStrip l) with
    | none => rw [henv] at h; simp at h
    | some t =>
      obtain ⟨ts, lvl, acct, msg⟩ := t
      rw [henv] at h
      dsimp only at h ⊢
      cases hcm : classifyMsg ts lvl msg with
      | error e =>
        cases e
        rfl
      | ok o =>
        rw [hcm] at h
        simp at h
  have key : ∀ (pre : List Str) (s : BState),
      (runLines s (pre ++ l :: post)).2 = true := by
    intro pre
    induction pre with
    | nil => intro s; simp [runLines, perr s]
    | cons p rest ih =>
      intro s
      show (runLines s (p :: (rest ++ l :: post))).2 = true
      rw [runLines]
      cases hp : processLine s p with
      | ok s1 => simpa using ih s1
      | error e => rfl
  have h2 := key pre initState
  unfold generate runLog
  rcases hr : runLines initState (pre ++ l :: post) with ⟨sfin, ab⟩
  rw [hr] at h2
  simp only at h2
  subst h2
  rfl

/-- C3 amended witness: the abort theorem at the concrete malformed input. -/
theorem malformed_numeric_aborts_run_witness :
    lineRaises (S "2024.01.01 10:00:01.000 Trade '7': open event #2 buy 1.2.3 lots EURUSD at 1.1000") = true ∧
    generate
      ([S "2024.01.01 10:00:00.000 Trade '7': open event #1 buy 1.00 lots EURUSD at 1.1000"] ++
       S "2024.01.01 10:00:01.000 Trade '7': open event #2 buy 1.2.3 lots EURUSD at 1.1000" ::
       [S "2024.01.01 10:00:02.000 Trade '7': open event #3 sell 2.00 lots GBPUSD at 1.3000"]) = [] :=
  ⟨by decide,
   malformed_numeric_aborts_run
     [S "2024.01.01 10:00:00.000 Trade '7': open event #1 buy 1.00 lots EURUSD at 1.1000"]
     [S "2024.01.01 10:00:02.000 Trade '7': open event #3 sell 2.00 lots GBPUSD at 1.3000"]
     (S "2024.01.01 10:00:01.000 Trade '7': open event #2 buy 1.2.3 lots EURUSD at 1.1000")
     (by decide)⟩

/--
C5 counterexample: a Trade `modify event` message without the optional
`limit|stop` token, written with a single space between the direction and the
volume, matches the envelope but NOT `rgx_modify` (the pattern demands the
spaces on both sides of the optional group), so the line is skipped and no
record is produced.
-/
theorem modify_single_space_counterexample :
    (parseEnv (pyStrip (S "2024.01.01 10:00:00.000 Trade '123': modify event #5 buy 0.10 lots EURUSD at 1.1000 tp: 1.2000 sl: 1.0000"))).map
      (fun t => (t.2.1, t.2.2.2)) =
      some (Level.trade,
        S "modify event #5 buy 0.10 lots EURUSD at 1.1000 tp: 1.2000 sl: 1.0000") ∧
    matchModify (S "modify event #5 buy 0.10 lots EURUSD at 1.1000 tp: 1.2000 sl: 1.0000") = none ∧
    generate
      [S "2024.01.01 10:00:00.000 Trade '123': modify event #5 buy 0.10 lots EURUSD at 1.1000 tp: 1.2000 sl: 1.0000"] = [] := by decide

/--
C5 amended: the tokenless `modify event` message is classified as
`OrderPlacedOrModified` (appending a Place/Mod record, with type
`"Limit/Stop".capitalize() = "Limit/stop"`) only when TWO consecutive spaces
stand between the direction and the volume, where the optional token would
sit; with a single space the line is skipped as unrecognized.
-/
theorem modify_double_space_matches :
    (generate
      [S "2024.01.01 10:00:00.000 Trade '123': modify event #5 buy  0.10 lots EURUSD at 1.1000 tp: 1.2000 sl: 1.0000"]).map
      (fun r => (r.orderId, r.action, r.type, r.volume)) =
    [(some 5, some (S "Place/Mod"), some (S "Limit/stop"), some (mkRat 1 10))] := by decide

/-- The message matches one of the inner patterns its level reacts to. -/
def knownMsg (lvl : Level) (msg : Str) : Bool :=
  match lvl with
  | .debug => false
  | .service => (matchBalInit msg).isSome
  | .trade =>
    (matchBalUpd msg).isSome || (matchModify msg).isSome || (matchOpen msg).isSome ||
    (matchClose msg).isSome || (matchCloseAllOk msg).isSome
  | .user_action =>
    (matchDeleteReq msg).isSome || (matchDeleteOk msg).isSome || matchCloseAllReq msg

/-- The envelope matches and the inner message matches a known pattern. -/
def isKnownLine (l : Str) : Bool :=
  match parseEnv (pyStrip l) with
  | none => false
  | some (_, lvl, _, msg) => knownMsg lvl msg

def countKnown (lines : List Str) : Nat := lines.countP isKnownLine

theorem stepEvent_journal_length (s : BState) (ev : Event) :
    (stepEvent s ev).journal.length ≤ s.journal.length + 1 := by
  cases ev with
  | balInit ts b =>
    cases hl : s.lastKnownBalance with
    | none => simp [stepEvent, hl]
    | some q => simp [stepEvent, hl]
  | balUpd ts b =>
    cases hl : s.lastKnownBalance with
    | none => simp [stepBalUpd_noBalance s ts b hl]
    | some lk =>
      cases hpq : s.pendingPl with
      | nil =>
        by_cases he : b = lk
        · simp [stepBalUpd_emptyQueue_eq s ts b lk hl hpq he]
        · simp [stepBalUpd_emptyQueue_ne s ts b lk hl hpq he]
      | cons c rest =>
        have hq : s.pendingPl ≠ [] := by rw [hpq]; simp
        cases hfa : firstAttributable s.journal s.pendingPl with
        | none =>
          by_cases he : b = lk
          · simp [stepBalUpd_fallback_eq s ts b lk hl hq hfa he]
          · simp [stepBalUpd_fallback_ne s ts b lk hl hq hfa he]
        | some ci =>
          obtain ⟨cid, i0⟩ := ci
          rw [stepBalUpd_attrib s ts b lk cid i0 hl hq hfa]
          simp [updateAt_length]
  | placeMod ts id dir kind vol price tp sl instr => simp [stepEvent]
  | opened ts id dir vol price instr =>
    cases hp : s.pending id with
    | some p => simp [stepEvent, hp]
    | none => simp [stepEvent, hp]
  | closed ts id dir vol price instr cb => simp [stepEvent]
  | closeAllOk ts id d pstr =>
    cases hf : findLastIdx
        (fun r0 => r0.orderId == some id && r0.action == some (S "Close")) s.journal with
    | some i0 => simp [stepEvent, hf, updateAt_length]
    | none => simp [stepEvent, hf]
  | deleteReq ts id d => simp [stepEvent]
  | deleteOk ts id d => simp [stepEvent]
  | closeAllReq ts => simp [stepEvent]

theorem classifyMsg_known (ts : Str) (lvl : Level) (msg : Str) (ev : Event)
    (h : classifyMsg ts lvl msg = .ok (some ev)) : knownMsg lvl msg = true := by
  cases lvl with
  | debug => simp [classifyMsg] at h
  | service =>
    cases hm : matchBalInit msg with
    | some b => simp [knownMsg, hm]
    | none => rw [classifyMsg, hm] at h; simp at h
  | trade =>
    cases hm1 : matchBalUpd msg with
    | some b => simp [knownMsg, hm1]
    | none =>
      cases hm2 : matchModify msg with
      | some x => simp [knownMsg, hm2]
      | none =>
        cases hm3 : matchOpen msg with
        | some x => simp [knownMsg, hm3]
        | none =>
          cases hm4 : matchClose msg with
          | some x => simp [knownMsg, hm4]
          | none =>
            cases hm5 : matchCloseAllOk msg with
            | some x => simp [knownMsg, hm5]
            | none => rw [classifyMsg, hm1, hm2, hm3, hm4, hm5] at h; simp at h
  | user_action =>
    cases hm1 : matchDeleteReq msg with
    | some x => simp [knownMsg, hm1]
    | none =>
      cases hm2 : matchDeleteOk msg with
      | some x => simp [knownMsg, hm2]
      | none =>
        cases hm3 : matchCloseAllReq msg with
        | true => simp [knownMsg, hm3]
        | false => rw [classifyMsg, hm1, hm2] at h; rw [hm3] at h; simp at h

theorem acctUpd_journal (s : BState) (acct : Str) :
    (acctUpd s acct).journal = s.journal := by
  unfold acctUpd
  split <;> rfl

theorem processLine_journal_length (s : BState) (l : Str) (t : BState)
    (h : processLine s l = .ok t) :
    t.journal.length ≤ s.journal.length + (if isKnownLine l then 1 else 0) := by
  unfold processLine at h
  cases henv : parseEnv (pyStrip l) with
  | none =>
    rw [henv] at h
    dsimp only at h
    injection h with h
    subst h
    simp [isKnownLine, henv]
  | some tup =>
    obtain ⟨ts, lvl, acct, msg⟩ := tup
    rw [henv] at h
    dsimp only at h
    cases hcm : classifyMsg ts lvl msg with
    | error e => rw [hcm] at h; simp at h
    | ok o =>
      rw [hcm] at h
      cases o with
      | none =>
        dsimp only at h
        injection h with h
        subst h
        rw [acctUpd_journal]
        exact Nat.le_add_right _ _
      | some ev =>
        dsimp only at h
        injection h with h
        subst h
        have hk : isKnownLine l = true := by
          rw [isKnownLine, henv]
          exact classifyMsg_known ts lvl msg ev hcm
        rw [hk]
        simp only [if_pos]
        calc (stepEvent (acctUpd s acct) ev).journal.length
            ≤ (acctUpd s acct).journal.length + 1 := stepEvent_journal_length _ _
          _ = s.journal.length + 1 := by rw [acctUpd_journal]

theorem runLines_bound (ls : List Str) (s : BState)
    (h : (runLines s ls).2 = false) :
    (runLines s ls).1.journal.length ≤ s.journal.length + ls.countP isKnownLine := by
  induction ls generalizing s with
  | nil => simp [runLines]
  | cons l rest ih =>
    rw [runLines] at h ⊢
    cases hp : processLine s l with
    | error e => rw [hp] at h; simp at h
    | ok s1 =>
      rw [hp] at h
      dsimp only at h ⊢
      have h1 := processLine_journal_length s l s1 hp
      have h2 := ih s1 h
      rw [List.countP_cons]
      by_cases hk : isKnownLine l
      · rw [hk] at h1
        simp only [hk, if_pos] at h1 ⊢
        omega
      · simp only [hk] at h1
        simp only [eq_self_iff_true, if_neg, Bool.not_eq_true] at h1 ⊢
        simp [hk]
        omega

/--
C9: the number of records in the final output is at most the number of input
lines whose envelope matches and whose inner message matches a known pattern;
no record is ever created from an unmatched line.
-/
theorem record_count_le_known_lines (lines : List Str) :
    (generate lines).length ≤ countKnown lines := by
  unfold generate runLog countKnown
  rcases hr : runLines initState lines with ⟨sfin, ab⟩
  cases ab with
  | false =>
    have hb := runLines_bound lines initState (by rw [hr])
    rw [hr] at hb
    simpa [initState] using hb
  | true => simp

/-- Equality of every state component except the retained account id. -/
def eqExceptAcct (s1 s2 : BState) : Prop :=
  s1.journal = s2.journal ∧ s1.pending = s2.pending ∧ s1.openPos = s2.openPos ∧
  s1.lastKnownBalance = s2.lastKnownBalance ∧ s1.pendingPl = s2.pendingPl ∧
  s1.advisories = s2.advisories

theorem eqExceptAcct_symm {s1 s2 : BState} (h : eqExceptAcct s1 s2) :
    eqExceptAcct s2 s1 :=
  ⟨h.1.symm, h.2.1.symm, h.2.2.1.symm, h.2.2.2.1.symm, h.2.2.2.2.1.symm,
   h.2.2.2.2.2.symm⟩

theorem eqExceptAcct_trans {s1 s2 s3 : BState} (h : eqExceptAcct s1 s2)
    (h' : eqExceptAcct s2 s3) : eqExceptAcct s1 s3 :=
  ⟨h.1.trans h'.1, h.2.1.trans h'.2.1, h.2.2.1.trans h'.2.2.1,
   h.2.2.2.1.trans h'.2.2.2.1, h.2.2.2.2.1.trans h'.2.2.2.2.1,
   h.2.2.2.2.2.trans h'.2.2.2.2.2⟩

theorem eqExceptAcct_acctUpd (s : BState) (acct : Str) :
    eqExceptAcct (acctUpd s acct) s := by
  unfold acctUpd
  split <;> simp [eqExceptAcct]

/-- The event transition never reads or affects the retained account id. -/
theorem stepEvent_eqExceptAcct (s1 s2 : BState) (ev : Event)
    (h : eqExceptAcct s1 s2) :
    eqExceptAcct (stepEvent s1 ev) (stepEvent s2 ev) := by
  obtain ⟨hj, hp, ho, hl, hq, ha⟩ := h
  cases s1 with
  | mk j1 p1 o1 l1 q1 a1 acc1 =>
  cases s2 with
  | mk j2 p2 o2 l2 q2 a2 acc2 =>
  dsimp only at hj hp ho hl hq ha
  subst hj hp ho hl hq ha
  cases ev <;> simp only [stepEvent] <;> (repeat' split) <;> simp_all [eqExceptAcct]

/-- Two lines that match the envelope identically except for the account id. -/
def acctVariant (l1 l2 : Str) : Prop :=
  ∃ ts lvl a1 a2 msg, parseEnv (pyStrip l1) = some (ts, lvl, a1, msg) ∧
    parseEnv (pyStrip l2) = some (ts, lvl, a2, msg)

theorem processLine_envNone (s : BState) (l : Str)
    (h : parseEnv (pyStrip l) = none) : processLine s l = .ok s := by
  unfold processLine
  rw [h]

theorem processLine_envSome (s : BState) (l ts acct msg : Str) (lvl : Level)
    (h : parseEnv (pyStrip l) = some (ts, lvl, acct, msg)) :
    processLine s l =
      match classifyMsg ts lvl msg with
      | .error e => .error e
      | .ok none => .ok (acctUpd s acct)
      | .ok (some ev) => .ok (stepEvent (acctUpd s acct) ev) := by
  unfold processLine
  rw [h]

theorem processLine_acct (s1 s2 : BState) (l1 l2 : Str)
    (hs : eqExceptAcct s1 s2) (hl : l1 = l2 ∨ acctVariant l1 l2) :
    (processLine s1 l1 = .error () ∧ processLine s2 l2 = .error ()) ∨
    (∃ t1 t2, processLine s1 l1 = .ok t1 ∧ processLine s2 l2 = .ok t2 ∧
      eqExceptAcct t1 t2) := by
  rcases hl with rfl | ⟨ts, lvl, a1, a2, msg, he1, he2⟩
  · cases henv : parseEnv (pyStrip l1) with
    | none =>
      exact Or.inr ⟨s1, s2, processLine_envNone s1 _ henv,
        processLine_envNone s2 _ henv, hs⟩
    | some tup =>
      obtain ⟨ts, lvl, acct, msg⟩ := tup
      have ht : eqExceptAcct (acctUpd s1 acct) (acctUpd s2 acct) :=
        eqExceptAcct_trans (eqExceptAcct_acctUpd s1 acct)
          (eqExceptAcct_trans hs (eqExceptAcct_symm (eqExceptAcct_acctUpd s2 acct)))
      rw [processLine_envSome s1 _ ts acct msg lvl henv,
        processLine_envSome s2 _ ts acct msg lvl henv]
      cases hcm : classifyMsg ts lvl msg with
      | error e =>
        cases e
        exact Or.inl ⟨rfl, rfl⟩
      | ok o =>
        cases o with
        | none => exact Or.inr ⟨_, _, rfl, rfl, ht⟩
        | some ev => exact Or.inr ⟨_, _, rfl, rfl, stepEvent_eqExceptAcct _ _ ev ht⟩
  · have ht : eqExceptAcct (acctUpd s1 a1) (acctUpd s2 a2) :=
      eqExceptAcct_trans (eqExceptAcct_acctUpd s1 a1)
        (eqExceptAcct_trans hs (eqExceptAcct_symm (eqExceptAcct_acctUpd s2 a2)))
    rw [processLine_envSome s1 _ ts a1 msg lvl he1,
      processLine_envSome s2 _ ts a2 msg lvl he2]
    cases hcm : classifyMsg ts lvl msg with
    | error e =>
      cases e
      exact Or.inl ⟨rfl, rfl⟩
    | ok o =>
      cases o with
      | none => exact Or.inr ⟨_, _, rfl, rfl, ht⟩
      | some ev => exact Or.inr ⟨_, _, rfl, rfl, stepEvent_eqExceptAcct _ _ ev ht⟩

theorem runLines_acct (ls1 ls2 : List Str)
    (hf : List.Forall₂ (fun l1 l2 => l1 = l2 ∨ acctVariant l1 l2) ls1 ls2) :
    ∀ s1 s2 : BState, eqExceptAcct s1 s2 →
      (runLines s1 ls1).2 = (runLines s2 ls2).2 ∧
      eqExceptAcct (runLines s1 ls1).1 (runLines s2 ls2).1 := by
  induction hf with
  | nil =>
    intro s1 s2 hs
    exact ⟨rfl, hs⟩
  | cons hrel hrest ih =>
    intro s1 s2 hs
    rcases processLine_acct s1 s2 _ _ hs hrel with ⟨he1, he2⟩ | ⟨t1, t2, ho1, ho2, ht⟩
    · rw [runLines, runLines, he1, he2]
      exact ⟨rfl, hs⟩
    · rw [runLines, runLines, ho1, ho2]
      exact ih t1 t2 ht

/--
C10: the produced journal is independent of the account-id digits: for two
inputs whose lines are pairwise identical or differ only in the quoted
account-id field of an envelope-matching line, the outputs are identical.
-/
theorem journal_independent_of_account_id (ls1 ls2 : List Str)
    (h : List.Forall₂ (fun l1 l2 => l1 = l2 ∨ acctVariant l1 l2) ls1 ls2) :
    generate ls1 = generate ls2 := by
  obtain ⟨hab, hst⟩ := runLines_acct ls1 ls2 h initState initState
    (by simp [eqExceptAcct])
  unfold generate runLog
  rcases hr1 : runLines initState ls1 with ⟨u1, b1⟩
  rcases hr2 : runLines initState ls2 with ⟨u2, b2⟩
  rw [hr1, hr2] at hab hst
  dsimp only at hab hst
  cases b1 with
  | true =>
    cases b2 with
    | true => rfl
    | false => simp at hab
  | false =>
    cases b2 with
    | true => simp at hab
    | false => exact hst.1

/--
C10 witness: two one-line inputs differing only in the account id '111'
versus '222' produce the same journal.
-/
theorem journal_independent_of_account_id_witness :
    List.Forall₂ (fun l1 l2 => l1 = l2 ∨ acctVariant l1 l2)
      [S "2024.01.01 10:00:00.000 Trade '111': open event #1 buy 1.00 lots EURUSD at 1.1000"]
      [S "2024.01.01 10:00:00.000 Trade '222': open event #1 buy 1.00 lots EURUSD at 1.1000"] ∧
    generate
      [S "2024.01.01 10:00:00.000 Trade '111': open event #1 buy 1.00 lots EURUSD at 1.1000"] =
    generate
      [S "2024.01.01 10:00:00.000 Trade '222': open event #1 buy 1.00 lots EURUSD at 1.1000"] := by
  have hf : List.Forall₂ (fun l1 l2 => l1 = l2 ∨ acctVariant l1 l2)
      [S "2024.01.01 10:00:00.000 Trade '111': open event #1 buy 1.00 lots EURUSD at 1.1000"]
      [S "2024.01.01 10:00:00.000 Trade '222': open event #1 buy 1.00 lots EURUSD at 1.1000"] :=
    List.Forall₂.cons
      (Or.inr ⟨S "2024.01.01 10:00:00.000", Level.trade, S "111", S "222",
        S "open event #1 buy 1.00 lots EURUSD at 1.1000", by decide, by decide⟩)
      List.Forall₂.nil
  exact ⟨hf, journal_independent_of_account_id _ _ hf⟩
